import Mathlib

/-!
Verification of the `frontmatters` organization-analysis pipeline.

This file shallowly embeds the statistics and extraction code of
`src/frontmatters/commands/organize.py`, `src/frontmatters/commands/tree.py`
and the response-handling code of
`src/frontmatters/agents/organizational_workflow.py`, and proves (or refutes)
the behavioural claims of the specification against it.

Python sets of strings are modelled as duplicate-free lists; the
hash-dependent iteration order of a Python set is modelled by an explicit
enumeration function `σ : List String → List String` that is assumed (or, in
counterexamples, concretely verified) to permute its argument.  Python dicts
are modelled either as association lists (when key order matters) or as
functions (when only lookup matters).  `KeyError` is modelled with `Except`.
-/

namespace Frontmatters

/-! ## String helpers mirroring the Python primitives used by the source -/

/-- Python `str.lower()` restricted to the latin alphabet, applied characterwise. -/
def lowerStr (s : String) : String := ⟨s.data.map Char.toLower⟩

/-- Python `needle in haystack` (substring containment) on the character lists. -/
def charsContains (hay needle : List Char) : Bool :=
  needle.isPrefixOf hay ||
    match hay with
    | [] => false
    | _ :: t => charsContains t needle

/-- Python `w in s` for strings. -/
def strContains (s w : String) : Bool := charsContains s.data w.data

/-- Python `any(word in s for word in ws)`. -/
def containsAny (s : String) (ws : List String) : Bool := ws.any (fun w => strContains s w)

/-- Python `s.endswith(suf)`. -/
def strEndsWith (s suf : String) : Bool := suf.data.isSuffixOf s.data

/-- Python `s.startswith(pre)`. -/
def strStartsWith (s pre : String) : Bool := pre.data.isPrefixOf s.data

/-- Python `s[-n:]` (the last `n` characters). -/
def takeRight (s : String) (n : Nat) : String := ⟨s.data.drop (s.data.length - n)⟩

/-- Python string `<`: lexicographic comparison by Unicode code point
(identical to Lean's `String` order, but written out on the character lists
so that it evaluates in the kernel). -/
def charsLt : List Char → List Char → Bool
  | [], [] => false
  | [], _ :: _ => true
  | _ :: _, [] => false
  | a :: as, b :: bs =>
    if a.val < b.val then true
    else if b.val < a.val then false
    else charsLt as bs

/-- Python `s < t` on strings. -/
def pyStrLt (s t : String) : Bool := charsLt s.data t.data

/-- Python `s <= t` on strings (used to express `sorted`'s stable ascending
order as a merge-sort relation). -/
def pyStrLe (s t : String) : Bool := !(pyStrLt t s)

/-- Split a character list at every occurrence of a separator character. -/
def splitChars (sep : Char) : List Char → List (List Char)
  | [] => [[]]
  | c :: cs =>
    if c = sep then [] :: splitChars sep cs
    else
      match splitChars sep cs with
      | [] => [[c]]
      | h :: t => (c :: h) :: t

/-- `pathlib.Path(p).parts`: "/" for an absolute path, then the nonempty,
non-"." components (pathlib drops empty and `.` components). -/
def pathParts (p : String) : List String :=
  (if strStartsWith p "/" then ["/"] else []) ++
    (((splitChars '/' p.data).map (fun l => String.mk l)).filter
      (fun c => c ≠ "" ∧ c ≠ "."))

/-- `pathlib.Path(p).parent.parts`: all parts but the last component. -/
def parentParts (p : String) : List String := (pathParts p).dropLast

/-! ## Data model of `organize.py` -/

/-- Frontmatter value of the `tags` key as found in the JSON tree:
a YAML scalar, a list of strings, or absent. -/
inductive FmVal where
  | str (s : String)
  | list (l : List String)
  | missing
deriving DecidableEq, Repr

/-- `FileAnalysis` dataclass from `organize.py`. -/
structure FileAnalysis where
  path : String
  name : String
  existing_tags : List String
  proposed_tags : List String
  content_type : String
  directory_context : List String
  description : String
deriving DecidableEq, Repr

/-- The directory keywords recognised by `_propose_tags`. -/
def dirKeywords : List String := ["ai", "agents", "prompts", "blog", "research", "workflows", "tools"]

/-- Add an element to a Python set modelled as an insertion-ordered
duplicate-free list (`tags.add(t)`). -/
def setAdd (acc : List String) (t : String) : List String :=
  if t ∈ acc then acc else acc ++ [t]

/-- `tags.add(t)` guarded by a condition. -/
def setAddIf (acc : List String) (b : Bool) (t : String) : List String :=
  if b then setAdd acc t else acc

/-- The set built by `OrganizationAnalyzer._propose_tags`, as an
insertion-ordered duplicate-free list (the enumeration order of the Python
set is applied separately). -/
def proposedTagSet (filename : String) (directory_parts : List String) (description : String) :
    List String :=
  let t := directory_parts.foldl
    (fun acc part => if lowerStr part ∈ dirKeywords then setAdd acc (lowerStr part) else acc) []
  let fl := lowerStr filename
  let t := setAddIf t (containsAny fl ["draft", "wip", "temp"]) "draft"
  let t := setAddIf t (containsAny fl ["blog", "post", "article"]) "blog"
  let t := setAddIf t (containsAny fl ["prompt", "system"]) "prompt"
  let t := setAddIf t (containsAny fl ["agent", "bot"]) "agent"
  let t := setAddIf t (containsAny fl ["workflow", "process"]) "workflow"
  let t := setAddIf t (containsAny fl ["research", "analysis"]) "research"
  let t := setAddIf t (containsAny fl ["thread", "conversation"]) "thread"
  let t := setAddIf t (containsAny fl ["config", "settings"]) "configuration"
  let t := setAddIf t (containsAny fl ["runbook", "guide", "tutorial"]) "documentation"
  if description ≠ "" then
    let dl := lowerStr description
    let t := setAddIf t (containsAny dl ["python", "javascript", "typescript", "rust", "go"]) "programming"
    let t := setAddIf t (containsAny dl ["docker", "kubernetes", "aws", "gcp", "azure"]) "infrastructure"
    let t := setAddIf t (containsAny dl ["api", "rest", "graphql", "endpoint"]) "api"
    let t := setAddIf t (containsAny dl ["database", "sql", "mongodb", "postgres"]) "database"
    t
  else t

/-- `_propose_tags` returns `list(tags)`: the set enumerated in the
process-dependent order `σ`. -/
def proposeTags (σ : List String → List String) (filename : String)
    (directory_parts : List String) (description : String) : List String :=
  σ (proposedTagSet filename directory_parts description)

/-- `OrganizationAnalyzer._determine_content_type`.  Note that the membership
tests on `directory_parts` are case-sensitive, exactly as in the source, and
that the `description` parameter is accepted but never used, as in the source. -/
def determineContentType (filename : String) (directory_parts : List String)
    (_description : String) : String :=
  let fl := lowerStr filename
  if directory_parts.contains "blog" || containsAny fl ["blog", "post", "article"] then "blog"
  else if directory_parts.contains "prompt" || strContains fl "prompt" then "prompt"
  else if directory_parts.contains "agent" || strContains fl "agent" then "agent"
  else if directory_parts.contains "workflow" || strContains fl "workflow" then "workflow"
  else if directory_parts.contains "research" || strContains fl "research" then "research"
  else if strContains fl "thread" || strContains fl "conversation" then "thread"
  else if containsAny fl ["config", "settings"] then "configuration"
  else if containsAny fl ["readme", "guide", "tutorial", "doc"] then "documentation"
  else if containsAny fl ["draft", "wip", "temp"] then "draft"
  else "general"

/-! ## The JSON tree consumed by `organize.py` and the recursive extractor

A tree node is a JSON object; the extractor reads the keys `type`, `name`,
`path`, `frontmatter` (collapsed here to the `tags` value and the
`description` string, with their `get` defaults applied) and `children`.
A missing key that the Python code accesses with `node[...]` raises
`KeyError`, modelled with `Except`. -/

inductive JNode where
  | node (type? : Option String) (name? : Option String) (path? : Option String)
      (fmTags : FmVal) (fmDesc : String) (children : List JNode)

/-- `node[...]` on an optional key: `KeyError` when absent. -/
def keyErr {α : Type} : Option α → String → Except String α
  | some a, _ => Except.ok a
  | none, k => Except.error k

instance {ε α : Type} [DecidableEq ε] [DecidableEq α] : DecidableEq (Except ε α) :=
  fun a b =>
    match a, b with
    | Except.ok x, Except.ok y =>
      if h : x = y then isTrue (by rw [h])
      else isFalse (by intro hh; cases hh; exact h rfl)
    | Except.ok _, Except.error _ => isFalse (by intro hh; cases hh)
    | Except.error _, Except.ok _ => isFalse (by intro hh; cases hh)
    | Except.error x, Except.error y =>
      if h : x = y then isTrue (by rw [h])
      else isFalse (by intro hh; cases hh; exact h rfl)

/-- `frontmatter.get("tags", [])` followed by the
`existing_tags if isinstance(existing_tags, list) else []` guard. -/
def existingTagsOf : FmVal → List String
  | FmVal.list l => l
  | _ => []

mutual

/-- `OrganizationAnalyzer._extract_files_recursive`.  `σ` is the set
enumeration order used by `_propose_tags`; `ctx` is the (unused but
faithfully threaded) `path_context`. -/
def extractNode (σ : List String → List String) (ctx : List String) :
    JNode → Except String (List FileAnalysis)
  | JNode.node t n p tg d cs => do
    let here ←
      if t = some "file" then do
        let nm ← keyErr n "name"
        if strEndsWith nm ".md" then do
          let pth ← keyErr p "path"
          let dirParts := parentParts pth
          pure [⟨pth, nm, existingTagsOf tg, proposeTags σ nm dirParts d,
                 determineContentType nm dirParts d, dirParts, d⟩]
        else pure []
      else pure []
    match cs with
    | [] => pure here
    | _ :: _ => do
      let newCtx ←
        if t = some "directory" then do
          let nm ← keyErr n "name"
          pure (ctx ++ [nm])
        else pure ctx
      let rest ← extractList σ newCtx cs
      pure (here ++ rest)

/-- The `for child in node.get("children", [])` loop. -/
def extractList (σ : List String → List String) (ctx : List String) :
    List JNode → Except String (List FileAnalysis)
  | [] => pure []
  | c :: cs => do
    let r ← extractNode σ ctx c
    let rs ← extractList σ ctx cs
    pure (r ++ rs)

end

/-! ## Tag statistics (`OrganizationAnalyzer.analyze_tags`) -/

/-- `set(existing_tags + proposed_tags)` as a duplicate-free list
(membership is what the statistics use; iteration order goes through `σ`). -/
def combinedTags (f : FileAnalysis) : List String :=
  (f.existing_tags ++ f.proposed_tags).dedup

/-- `tag_files[t].append(p)` on the insertion-ordered dict (keys are unique;
a fresh key is appended at the end, as a `defaultdict` does). -/
def dictAppend : List (String × List String) → String → String → List (String × List String)
  | [], t, p => [(t, [p])]
  | e :: es, t, p => if e.1 = t then (e.1, e.2 ++ [p]) :: es else e :: dictAppend es t p

/-- The `tag_files` defaultdict after the collection loop of `analyze_tags`:
for each file, each tag of its (set-enumerated) combined tag set gets the
file's path appended. -/
def buildTagFiles (σ : List String → List String) (files : List FileAnalysis) :
    List (String × List String) :=
  files.foldl (fun d f => (σ (combinedTags f)).foldl (fun d t => dictAppend d t f.path) d) []

/-- Dict lookup with the defaultdict default `[]`. -/
def lookupTF : List (String × List String) → String → List String
  | [], _ => []
  | e :: es, t => if e.1 = t then e.2 else lookupTF es t

/-- `tag_analysis[t].frequency = len(tag_files[t])`. -/
def frequency (σ : List String → List String) (files : List FileAnalysis) (t : String) : Nat :=
  (lookupTF (buildTagFiles σ files) t).length

/-- The key insertion order of `tag_files` (= iteration order of
`tag_analysis`). -/
def tagAnalysisKeys (σ : List String → List String) (files : List FileAnalysis) : List String :=
  (buildTagFiles σ files).map (fun e => e.1)

/-- The `tag_cooccurrence` nested defaultdict as a counting function.  The
double loop over the duplicate-free set `all_tags` increments the cell of
every ordered pair of distinct members exactly once per file. -/
def buildCooc (σ : List String → List String) (files : List FileAnalysis) :
    String → String → Nat :=
  files.foldl
    (fun c f => fun a b =>
      c a b + (if a ≠ b ∧ a ∈ σ (combinedTags f) ∧ b ∈ σ (combinedTags f) then 1 else 0))
    (fun _ _ => 0)

/-- `b ∈ related_tags(a)`: the co-occurrence count is at least 2 (cells never
written hold the defaultdict value 0). -/
def relatedMem (σ : List String → List String) (files : List FileAnalysis)
    (a b : String) : Bool :=
  2 ≤ buildCooc σ files a b

/-! ## Report computations (`generate_analysis_report`) -/

/-- The `frequent_tags` sub-dict: tags with `frequency >= min_freq`,
in `tag_analysis` iteration order. -/
def frequentKeys (σ : List String → List String) (files : List FileAnalysis)
    (minFreq : Nat) : List String :=
  (tagAnalysisKeys σ files).filter (fun t => minFreq ≤ frequency σ files t)

/-- `len(set(a) & set(b))`. -/
def interCard (a b : List String) : Nat :=
  (a.dedup.filter (fun x => x ∈ b)).length

/-- The body of the double loop over `frequent_tags` that collects
`overlapping_tags`: `tag1 < tag2` and `len(set(files1) & set(files2)) >= 2`. -/
def overlapEntry (σ : List String → List String) (files : List FileAnalysis)
    (t1 t2 : String) : Option (String × String × Nat) :=
  if pyStrLt t1 t2 then
    (if 2 ≤ interCard (lookupTF (buildTagFiles σ files) t1) (lookupTF (buildTagFiles σ files) t2)
     then some (t1, t2,
            interCard (lookupTF (buildTagFiles σ files) t1) (lookupTF (buildTagFiles σ files) t2))
     else none)
  else none

/-- The `overlapping_tags` list in generation order: both tags frequent,
`tag1 < tag2`, overlap at least 2. -/
def overlapPairs (σ : List String → List String) (files : List FileAnalysis)
    (minFreq : Nat) : List (String × String × Nat) :=
  (frequentKeys σ files minFreq).flatMap (fun t1 =>
    (frequentKeys σ files minFreq).filterMap (overlapEntry σ files t1))

/-- `overlapping_tags.sort(key=lambda x: x[2], reverse=True)`: a stable sort,
descending on the overlap count. -/
def sortedOverlaps (σ : List String → List String) (files : List FileAnalysis)
    (minFreq : Nat) : List (String × String × Nat) :=
  (overlapPairs σ files minFreq).mergeSort (fun x y => y.2.2 ≤ x.2.2)

/-- One data row of the `File-by-File Tag Recommendations` table. -/
def fileRow (f : FileAnalysis) : String :=
  let current := if f.existing_tags.isEmpty then "None" else String.intercalate ", " f.existing_tags
  let proposed := if f.proposed_tags.isEmpty then "None" else String.intercalate ", " f.proposed_tags
  let displayPath := if 50 < f.path.data.length then "..." ++ takeRight f.path 47 else f.path
  "| " ++ displayPath ++ " | " ++ current ++ " | " ++ proposed ++ " | " ++ f.content_type ++ " |"

/-! ## Category rules (`OrganizationAnalyzer.generate_category_rules`)

The free-form Python condition strings of the source are embedded as the
predicates they denote over a `FileAnalysis`.  The `condition` display string
is dropped (it is only report text). -/

structure CategoryRule where
  rule_id : String
  description : String
  cond : FileAnalysis → Bool
  category : String
  priority : Nat

def systemPromptRule : CategoryRule :=
  { rule_id := "system_prompt_location",
    description := "System prompts should be organized by their primary use case, not by project",
    cond := fun f => f.content_type == "prompt" && strContains (lowerStr f.name) "system",
    category := "AI/Prompts/System",
    priority := 1 }

def projectAgentsRule : CategoryRule :=
  { rule_id := "project_specific_agents",
    description := "Project-specific agents should live with the project, not in general agents",
    cond := fun f => f.content_type == "agent" &&
      (["RepRally", "Trinote", "specific_project"].any (fun proj => f.directory_context.contains proj)),
    category := "Projects/{project}/Agents",
    priority := 2 }

def blogCentralizationRule : CategoryRule :=
  { rule_id := "blog_content_centralization",
    description := "All blog content should be centralized regardless of topic",
    cond := fun f => f.content_type == "blog" || strContains (lowerStr f.name) "blog",
    category := "AI/Blog",
    priority := 1 }

def researchByTopicRule : CategoryRule :=
  { rule_id := "research_by_topic",
    description := "Research should be organized by topic, not by type",
    cond := fun f => f.content_type == "research",
    category := "AI/Research/{topic}",
    priority := 3 }

def workflowByDomainRule : CategoryRule :=
  { rule_id := "workflow_by_domain",
    description := "Workflows should be organized by their domain of application",
    cond := fun f => f.content_type == "workflow",
    category := "AI/Workflows/{domain}",
    priority := 2 }

/-- The rule list of `generate_category_rules`, in declaration order. -/
def generatedRules : List CategoryRule :=
  [systemPromptRule, projectAgentsRule, blogCentralizationRule,
   researchByTopicRule, workflowByDomainRule]

/-- Modelled from the spec: the Rule Engine resolution procedure of section
4.5 is not implemented anywhere in the source (the source only generates and
prints the rule set), so it is modelled from the specification words:
evaluate the rules in ascending priority order, keeping declaration order for
equal priorities (a stable sort), and the first rule whose condition holds
determines the category; if no rule matches the result is the explicit
"uncategorized" sentinel. -/
def resolveCategory (rules : List CategoryRule) (f : FileAnalysis) : String :=
  match (rules.mergeSort (fun a b => a.priority ≤ b.priority)).find? (fun r => r.cond f) with
  | some r => r.category
  | none => "uncategorized"

/-! ## Analysis-provider response handling (`organizational_workflow.py`)

Each agent posts a prompt and then runs `json.loads` on the response inside a
`try/except json.JSONDecodeError`.  The parse outcome is modelled as an
`Option` of the stage schema: `none` is an unparseable response, and the
handler maps it to the stage fallback dictionary.  The float
`confidence_score` only ever carries exact constants here, so it is modelled
as a rational. -/

structure ContentAnalysisResult where
  content_summary : String
  primary_purpose : String
  technical_domain : String
  key_concepts : List String
  audience_level : String
  content_type : String
  confidence_score : ℚ
  reasoning : String
deriving DecidableEq, Repr

/-- The fallback dictionary of `ContentAnalyzerAgent.analyze_content`. -/
def contentAnalysisFallback : ContentAnalysisResult :=
  { content_summary := "Analysis failed - unable to parse content",
    primary_purpose := "unknown",
    technical_domain := "unknown",
    key_concepts := [],
    audience_level := "unknown",
    content_type := "unknown",
    confidence_score := 0,
    reasoning := "JSON parsing failed" }

/-- Response handling of `ContentAnalyzerAgent.analyze_content`. -/
def analyzeContent (parsed : Option ContentAnalysisResult) : ContentAnalysisResult :=
  match parsed with
  | some r => r
  | none => contentAnalysisFallback

structure CategorizationResult where
  primary_category : String
  subcategory_path : String
  alternative_categories : List String
  category_rationale : String
  structural_improvements : List String
deriving DecidableEq, Repr

/-- The fallback dictionary of `CategorizerAgent.categorize_document`. -/
def categorizationFallback : CategorizationResult :=
  { primary_category := "Uncategorized",
    subcategory_path := "Uncategorized",
    alternative_categories := [],
    category_rationale := "Categorization failed",
    structural_improvements := [] }

/-- Response handling of `CategorizerAgent.categorize_document`. -/
def categorizeDocument (parsed : Option CategorizationResult) : CategorizationResult :=
  match parsed with
  | some r => r
  | none => categorizationFallback

structure TaggingResult where
  primary_tags : List String
  secondary_tags : List String
  technical_tags : List String
  contextual_tags : List String
  tag_rationale : String
  tag_relationships : List (String × List String)
deriving DecidableEq, Repr

/-- The fallback dictionary of `TaggerAgent.suggest_tags`. -/
def taggingFallback : TaggingResult :=
  { primary_tags := [],
    secondary_tags := [],
    technical_tags := [],
    contextual_tags := [],
    tag_rationale := "Tag generation failed",
    tag_relationships := [] }

/-- Response handling of `TaggerAgent.suggest_tags`. -/
def suggestTags (parsed : Option TaggingResult) : TaggingResult :=
  match parsed with
  | some r => r
  | none => taggingFallback

/-- One relationship entry of the relationship-mapper schema
(`{"document", "type", "strength", "reason"}`; the float strength is
modelled as a rational). -/
structure RelEntry where
  document : String
  type : String
  strength : ℚ
  reason : String
deriving DecidableEq, Repr

structure RelationshipResult where
  strong_relationships : List RelEntry
  weak_relationships : List RelEntry
  content_clusters : List String
  knowledge_gaps : List String
deriving DecidableEq, Repr

/-- The fallback dictionary of `RelationshipMapperAgent.map_relationships`:
all fields empty — it carries no confidence field and no failure sentinel. -/
def relationshipFallback : RelationshipResult :=
  { strong_relationships := [],
    weak_relationships := [],
    content_clusters := [],
    knowledge_gaps := [] }

/-- Response handling of `RelationshipMapperAgent.map_relationships`. -/
def mapRelationships (parsed : Option RelationshipResult) : RelationshipResult :=
  match parsed with
  | some r => r
  | none => relationshipFallback

structure ConsolidationEntry where
  merge : List String
  into : String
  impact : String
deriving DecidableEq, Repr

structure RebalancingEntry where
  action : String
  category : String
  reason : String
  suggestion : List String
deriving DecidableEq, Repr

/-- The optimizer schema.  JSON-object-valued fields
(`hierarchy_optimization`, `metrics`) are modelled as association lists;
only their empty-object fallback value matters here. -/
structure OptimizationResult where
  tag_consolidation : List ConsolidationEntry
  category_rebalancing : List RebalancingEntry
  hierarchy_optimization : List (String × String)
  search_optimization : List String
  cognitive_load_reduction : List String
  metrics : List (String × String)
deriving DecidableEq, Repr

/-- The fallback dictionary of `DataScienceOptimizerAgent.optimize_structure`:
all fields empty — it carries no confidence field and no failure sentinel. -/
def optimizationFallback : OptimizationResult :=
  { tag_consolidation := [],
    category_rebalancing := [],
    hierarchy_optimization := [],
    search_optimization := [],
    cognitive_load_reduction := [],
    metrics := [] }

/-- Response handling of `DataScienceOptimizerAgent.optimize_structure`. -/
def optimizeStructure (parsed : Option OptimizationResult) : OptimizationResult :=
  match parsed with
  | some r => r
  | none => optimizationFallback

structure PlanEntry where
  phase : Nat
  priority : String
  actions : List String
  timeline : String
deriving DecidableEq, Repr

structure StrategyRuleEntry where
  rule : String
  priority : Nat
deriving DecidableEq, Repr

/-- The strategist schema.  JSON-object-valued fields (`tag_taxonomy`,
`migration_strategy`) are modelled as association lists; only their
empty-object fallback value matters here. -/
structure StrategyResult where
  executive_summary : String
  implementation_plan : List PlanEntry
  categorization_rules : List StrategyRuleEntry
  tag_taxonomy : List (String × List String)
  migration_strategy : List (String × List String)
  success_metrics : List String
  maintenance_guidelines : List String
deriving DecidableEq, Repr

/-- The fallback dictionary of
`OrganizationalStrategistAgent.create_strategy`. -/
def strategyFallback : StrategyResult :=
  { executive_summary := "Strategy creation failed",
    implementation_plan := [],
    categorization_rules := [],
    tag_taxonomy := [],
    migration_strategy := [],
    success_metrics := [],
    maintenance_guidelines := [] }

/-- Response handling of `OrganizationalStrategistAgent.create_strategy`. -/
def createStrategy (parsed : Option StrategyResult) : StrategyResult :=
  match parsed with
  | some r => r
  | none => strategyFallback

/-! ## The tree builder (`tree.py`, `build_json_tree`)

The filesystem is modelled as a tree of directories carrying subdirectories
and plain files; a file optionally carries frontmatter `description` and
`tags` values.  `build_json_tree` recurses with a depth budget (`None` at the
cutoff becomes a dropped child), lists directories first and files second,
each sorted by the lower-cased name (a stable sort, as `sorted` is), skips
hidden entries, and emits JSON objects holding `title`, `path`, `type`,
`children` and optional `frontmatter` — note: no `name` key.  The `title`
field is not read by any consumer modelled here and is dropped. -/

structure FSFile where
  name : String
  fmDesc? : Option String
  fmTags? : Option FmVal
deriving DecidableEq, Repr

inductive FSTree where
  | dir (name : String) (subdirs : List FSTree) (files : List FSFile)

def FSTree.name : FSTree → String
  | FSTree.dir n _ _ => n

/-- The `file_data` JSON object built for one directory entry that is a
file.  Frontmatter is attached only for `.md` files and only for the keys
whose show-flag is set and which are present. -/
def childFileNode (showDesc showTags : Bool) (dirPath : String) (f : FSFile) : JNode :=
  let isMd := strEndsWith f.name ".md"
  JNode.node (some "file") none (some (dirPath ++ "/" ++ f.name))
    (match showTags && isMd, f.fmTags? with
     | true, some v => v
     | _, _ => FmVal.missing)
    (match showDesc && isMd, f.fmDesc? with
     | true, some s => s
     | _, _ => "")
    []

/-- `build_json_tree(directory, max_depth, ...)` with the remaining depth
budget as fuel (`fuel = max_depth - current_depth`; the source checks
`current_depth >= max_depth`). -/
def buildJsonTree (showDesc showTags : Bool) : Nat → String → FSTree → Option JNode
  | 0, _, _ => none
  | fuel + 1, dirPath, FSTree.dir _ subdirs files =>
    some (JNode.node (some "directory") none (some dirPath) FmVal.missing ""
      ((((subdirs.filter (fun s => !strStartsWith s.name ".")).mergeSort
            (fun a b => pyStrLe (lowerStr a.name) (lowerStr b.name))).filterMap (fun s =>
          buildJsonTree showDesc showTags fuel (dirPath ++ "/" ++ s.name) s)) ++
       ((files.filter (fun f => !strStartsWith f.name ".")).mergeSort
            (fun a b => pyStrLe (lowerStr a.name) (lowerStr b.name))).map
         (childFileNode showDesc showTags dirPath)))

/-- Specification-side enumeration for the extraction-order claim: the paths
of the `.md` files of the filesystem in depth-first order, directories before
files, case-insensitive alphabetical at each level, hidden entries skipped,
with the same depth budget as the builder. -/
def fsDocs : Nat → String → FSTree → List String
  | 0, _, _ => []
  | fuel + 1, dirPath, FSTree.dir _ subdirs files =>
    (((subdirs.filter (fun s => !strStartsWith s.name ".")).mergeSort
        (fun a b => pyStrLe (lowerStr a.name) (lowerStr b.name))).flatMap
      (fun s => fsDocs fuel (dirPath ++ "/" ++ s.name) s)) ++
    (((files.filter (fun f => !strStartsWith f.name ".")).mergeSort
        (fun a b => pyStrLe (lowerStr a.name) (lowerStr b.name))).filterMap
      (fun f => if strEndsWith f.name ".md" then some (dirPath ++ "/" ++ f.name) else none))

/-- The paths of the `.md` file nodes of a JSON tree in depth-first,
child-order-preserving order (a `build_json_tree` node carries no `name`, so
files are recognised by their `path`). -/
def mdPaths : JNode → List String
  | JNode.node t _ p _ _ cs =>
    (match t, p with
     | some "file", some pth => if strEndsWith pth ".md" then [pth] else []
     | _, _ => []) ++
    (cs.attach.flatMap (fun c => mdPaths c.1))
decreasing_by
  simp only [JNode.node.sizeOf_spec]
  have := List.sizeOf_lt_of_mem c.2
  omega

/-- `mdPaths` through the builder's `Option`. -/
def mdPathsO : Option JNode → List String
  | some n => mdPaths n
  | none => []

/-! ## Well-formedness, defects, and the specification-side flattening -/

/-- Every node carries `name` and `path` (the snapshot shape of the spec's
section 6). -/
def wellNamed : JNode → Bool
  | JNode.node _ n p _ _ cs =>
    n.isSome && p.isSome && (cs.attach.all (fun c => wellNamed c.1))
decreasing_by
  simp only [JNode.node.sizeOf_spec]
  have := List.sizeOf_lt_of_mem c.2
  omega

/-- A node at which `_extract_files_recursive` raises `KeyError`, or which
contains such a node: a file-typed node without `name`, a `.md` file node
without `path`, or a directory-typed node that has children but no `name`. -/
def hasDefect : JNode → Bool
  | JNode.node t n p _ _ cs =>
    (t = some "file" &&
      (match n with
       | none => true
       | some nm => strEndsWith nm ".md" && p.isNone)) ||
    (t = some "directory" && !cs.isEmpty && n.isNone) ||
    (cs.attach.any (fun c => hasDefect c.1))
decreasing_by
  simp only [JNode.node.sizeOf_spec]
  have := List.sizeOf_lt_of_mem c.2
  omega

/-- Specification-side flattening (for the extractor refinement): one record
per `.md` file node, in depth-first order preserving child order, the
directory context being the parent components of the recorded path. -/
def flattenSpec (σ : List String → List String) : JNode → List FileAnalysis
  | JNode.node t n p tg d cs =>
    (match t, n, p with
     | some "file", some nm, pOpt =>
       if strEndsWith nm ".md" then
         match pOpt with
         | some pth =>
           [⟨pth, nm, existingTagsOf tg, proposeTags σ nm (parentParts pth) d,
             determineContentType nm (parentParts pth) d, parentParts pth, d⟩]
         | none => []
       else []
     | _, _, _ => []) ++
    (cs.attach.flatMap (fun c => flattenSpec σ c.1))
decreasing_by
  simp only [JNode.node.sizeOf_spec]
  have := List.sizeOf_lt_of_mem c.2
  omega

/-- `Except` success as a Boolean. -/
def exceptOk {ε α : Type} : Except ε α → Bool
  | Except.ok _ => true
  | Except.error _ => false

/-! ## The workflow extractor
(`OrganizationalWorkflow._extract_documents_from_tree`) -/

/-- One entry of the `documents` list: `{"path", "name"}` updated with the
whole frontmatter (here: its `tags` value and `description`). -/
structure WFDoc where
  path : String
  name : String
  fmTags : FmVal
  fmDesc : String
deriving DecidableEq, Repr

mutual

/-- `extract_recursive` of the workflow module. -/
def extractWF : JNode → Except String (List WFDoc)
  | JNode.node t n p tg d cs => do
    let here ←
      if t = some "file" then do
        let nm ← keyErr n "name"
        if strEndsWith nm ".md" then do
          let pth ← keyErr p "path"
          pure [⟨pth, nm, tg, d⟩]
        else pure []
      else pure []
    let rest ← extractWFList cs
    pure (here ++ rest)

def extractWFList : List JNode → Except String (List WFDoc)
  | [] => pure []
  | c :: cs => do
    let r ← extractWF c
    let rs ← extractWFList cs
    pure (r ++ rs)

end

/-- A node at which `_extract_documents_from_tree` raises `KeyError` (it
never reads directory names), or which contains one. -/
def hasDefectWF : JNode → Bool
  | JNode.node t n p _ _ cs =>
    (t = some "file" &&
      (match n with
       | none => true
       | some nm => strEndsWith nm ".md" && p.isNone)) ||
    (cs.attach.any (fun c => hasDefectWF c.1))
decreasing_by
  simp only [JNode.node.sizeOf_spec]
  have := List.sizeOf_lt_of_mem c.2
  omega

/-! ## Concrete inputs used by witnesses and counterexamples -/

/-- A file analysis record carrying only a path and existing tags, as the
statistics engine consumes them. -/
def mkTagged (p : String) (ts : List String) : FileAnalysis :=
  ⟨p, p, ts, [], "general", [], ""⟩

/-- Four documents: two tagged `{c, d}`, two tagged `{a, b}`. -/
def sampleFiles : List FileAnalysis :=
  [mkTagged "p1" ["c", "d"], mkTagged "p2" ["c", "d"],
   mkTagged "p3" ["a", "b"], mkTagged "p4" ["a", "b"]]

/-- A snapshot with one `.md` file whose filename proposes two tags. -/
def blogDraftTree : JNode :=
  JNode.node (some "directory") (some "docs") (some "docs") FmVal.missing ""
    [JNode.node (some "file") (some "blog draft.md") (some "docs/blog draft.md")
      FmVal.missing "" []]

/-- A well-formed snapshot whose recorded paths are absolute. -/
def absTree : JNode :=
  JNode.node (some "directory") (some "docs") (some "/docs") FmVal.missing ""
    [JNode.node (some "file") (some "a.md") (some "/docs/a.md") FmVal.missing "" []]

/-- A snapshot containing a file node with no `name`, followed by a
well-formed `.md` file node. -/
def badTree : JNode :=
  JNode.node (some "directory") (some "docs") (some "docs") FmVal.missing ""
    [JNode.node (some "file") none none FmVal.missing "" [],
     JNode.node (some "file") (some "good.md") (some "docs/good.md") FmVal.missing "" []]

/-- A small filesystem for the builder/extractor composition. -/
def sampleFS : FSTree :=
  FSTree.dir "docs"
    [FSTree.dir "Zeta" [] [FSFile.mk "inner.md" none none],
     FSTree.dir "alpha" [] []]
    [FSFile.mk "B.md" (some "dB") none,
     FSFile.mk "a.md" none (some (FmVal.list ["t"])),
     FSFile.mk ".hidden.md" none none,
     FSFile.mk "notes.txt" none none]

/-- The document of the spec's blog example: directory context
`["AI", "Blog"]`, filename `"My trip.md"`, no other signal. -/
def tripDoc : FileAnalysis :=
  ⟨"AI/Blog/My trip.md", "My trip.md", [],
   proposeTags id "My trip.md" ["AI", "Blog"] "",
   determineContentType "My trip.md" ["AI", "Blog"] "", ["AI", "Blog"], ""⟩

/-- The same document with a lower-cased directory context. -/
def tripDocLower : FileAnalysis :=
  ⟨"ai/blog/My trip.md", "My trip.md", [],
   proposeTags id "My trip.md" ["ai", "blog"] "",
   determineContentType "My trip.md" ["ai", "blog"] "", ["ai", "blog"], ""⟩

/-- A document matching both the priority-1 blog rule (filename) and the
priority-2 project-agents rule (content type and directory). -/
def agentBlogDoc : FileAnalysis :=
  ⟨"p", "blog agent.md", [], [], "agent", ["RepRally"], ""⟩

/-- A document matching no generated rule. -/
def plainDoc : FileAnalysis :=
  ⟨"p", "notes.txt", [], [], "general", [], ""⟩

/-- A single `.md` file node whose frontmatter `tags` is the scalar string
`"python"` rather than a list. -/
def scalarTagsNode : JNode :=
  JNode.node (some "file") (some "a.md") (some "docs/a.md") (FmVal.str "python") "" []

/-- Running the organize extractor on the output of the tree builder (the
builder may return `None` at the depth cutoff, in which case there is nothing
to extract). -/
def extractBuilt (σ : List String → List String) :
    Option JNode → Except String (List FileAnalysis)
  | some n => extractNode σ [] n
  | none => Except.ok []

/-- A well-formed snapshot whose children are not in case-insensitive
alphabetical order. -/
def unsortedTree : JNode :=
  JNode.node (some "directory") (some "docs") (some "docs") FmVal.missing ""
    [JNode.node (some "file") (some "b.md") (some "docs/b.md") FmVal.missing "" [],
     JNode.node (some "file") (some "A.md") (some "docs/A.md") FmVal.missing "" []]

/-! # Theorems

## Helper lemmas about the tag-files dict -/

theorem lookupTF_dictAppend (d : List (String × List String)) (t p u : String) :
    lookupTF (dictAppend d t p) u =
      if u = t then lookupTF d u ++ [p] else lookupTF d u := by
  induction d with
  | nil =>
    by_cases h : u = t <;> simp [dictAppend, lookupTF, h]
    · intro h2; exact absurd h2.symm h
  | cons e es ih =>
    by_cases het : e.1 = t
    · by_cases heu : e.1 = u
      · have : u = t := heu ▸ het
        simp [dictAppend, lookupTF, het, heu, this]
      · have h1 : ¬ u = t := fun h => heu (h ▸ het)
        have h2 : ¬ t = u := fun h => h1 h.symm
        simp [dictAppend, lookupTF, het, heu, h1, h2]
    · by_cases heu : e.1 = u
      · have : ¬ u = t := fun h => het (h ▸ heu.symm ▸ rfl)
        simp [dictAppend, lookupTF, het, heu, this]
      · simp [dictAppend, lookupTF, het, heu, ih]

theorem lookupTF_foldl_tags (p : String) (tags : List String) :
    ∀ (d : List (String × List String)) (u : String),
      lookupTF (tags.foldl (fun d t => dictAppend d t p) d) u
        = lookupTF d u ++ List.replicate (tags.count u) p := by
  induction tags with
  | nil => intro d u; simp
  | cons t ts ih =>
    intro d u
    simp only [List.foldl_cons]
    rw [ih, lookupTF_dictAppend]
    by_cases h : u = t
    · subst h
      rw [List.count_cons_self, List.replicate_succ']
      simp only [if_true, List.append_assoc]
      congr 1
      rw [List.singleton_append, ← List.replicate_succ, List.replicate_succ']
    · rw [List.count_cons_of_ne h]
      simp [h]

theorem lookupTF_buildTagFiles (σ : List String → List String)
    (hσ : ∀ l, (σ l).Perm l) (files : List FileAnalysis) :
    ∀ (d : List (String × List String)) (u : String),
      lookupTF (files.foldl
          (fun d f => (σ (combinedTags f)).foldl (fun d t => dictAppend d t f.path) d) d) u
        = lookupTF d u ++ (files.filter (fun f => u ∈ combinedTags f)).map (fun f => f.path) := by
  induction files with
  | nil => intro d u; simp
  | cons f fs ih =>
    intro d u
    simp only [List.foldl_cons]
    rw [ih, lookupTF_foldl_tags]
    have hc : (σ (combinedTags f)).count u = (combinedTags f).count u :=
      (hσ (combinedTags f)).count_eq u
    by_cases h : u ∈ combinedTags f
    · have h1 : (combinedTags f).count u = 1 :=
        List.count_eq_one_of_mem (List.nodup_dedup _) h
      simp [List.filter_cons, h, hc, h1, List.append_assoc]
    · have h0 : (combinedTags f).count u = 0 := List.count_eq_zero.mpr h
      simp [List.filter_cons, h, hc, h0]

theorem lookupTF_char (σ : List String → List String) (hσ : ∀ l, (σ l).Perm l)
    (files : List FileAnalysis) (u : String) :
    lookupTF (buildTagFiles σ files) u
      = (files.filter (fun f => u ∈ combinedTags f)).map (fun f => f.path) := by
  have h := lookupTF_buildTagFiles σ hσ files [] u
  simpa [buildTagFiles, lookupTF] using h

theorem frequency_char (σ : List String → List String) (hσ : ∀ l, (σ l).Perm l)
    (files : List FileAnalysis) (u : String) :
    frequency σ files u = files.countP (fun f => u ∈ combinedTags f) := by
  rw [frequency, lookupTF_char σ hσ, List.length_map]
  exact (List.countP_eq_length_filter _ _).symm

/-! ## C1: tag frequency -/

/-- C1: for an analyzed document set with unique paths, `analyze_tags`
records, for every tag `t`, exactly the paths of the documents whose combined
(existing ∪ proposed) tag set contains `t`, and the recorded frequency is the
number of such documents; the frequencies do not depend on the set-iteration
order, so re-running the analysis on the same input yields the same
frequencies. -/
theorem analyze_tags_frequency_correct
    (σ σ₂ : List String → List String)
    (hσ : ∀ l, (σ l).Perm l) (hσ₂ : ∀ l, (σ₂ l).Perm l)
    (files : List FileAnalysis) (_hpaths : (files.map (fun f => f.path)).Nodup)
    (t : String) :
    lookupTF (buildTagFiles σ files) t
        = (files.filter (fun f => t ∈ combinedTags f)).map (fun f => f.path)
    ∧ frequency σ files t = files.countP (fun f => t ∈ combinedTags f)
    ∧ frequency σ files t = frequency σ₂ files t := by
  refine ⟨lookupTF_char σ hσ files t, frequency_char σ hσ files t, ?_⟩
  rw [frequency_char σ hσ files t, frequency_char σ₂ hσ₂ files t]

/-- Witness for C1 at the four-document sample. -/
theorem analyze_tags_frequency_correct_witness :
    lookupTF (buildTagFiles id sampleFiles) "c" = ["p1", "p2"]
    ∧ frequency id sampleFiles "c" = 2 := by
  have h := analyze_tags_frequency_correct id id (fun l => List.Perm.refl _)
    (fun l => List.Perm.refl _) sampleFiles (by decide) "c"
  exact ⟨h.1.trans (by decide), h.2.1.trans (by decide)⟩

/-! ## C3: related tags and co-occurrence -/

theorem buildCooc_eq_countP (σ : List String → List String)
    (hσ : ∀ l, (σ l).Perm l) (files : List FileAnalysis) :
    ∀ (c : String → String → Nat) (a b : String),
      (files.foldl
        (fun c f => fun a b =>
          c a b + (if a ≠ b ∧ a ∈ σ (combinedTags f) ∧ b ∈ σ (combinedTags f) then 1 else 0)) c) a b
      = c a b + files.countP (fun f => a ≠ b ∧ a ∈ combinedTags f ∧ b ∈ combinedTags f) := by
  induction files with
  | nil => intro c a b; simp
  | cons f fs ih =>
    intro c a b
    simp only [List.foldl_cons]
    rw [ih]
    have hmem : ∀ x, x ∈ σ (combinedTags f) ↔ x ∈ combinedTags f :=
      fun x => (hσ (combinedTags f)).mem_iff
    rw [List.countP_cons]
    by_cases hp : a ≠ b ∧ a ∈ combinedTags f ∧ b ∈ combinedTags f
    · simp [hmem, hp]
      omega
    · simp [hmem, hp]

theorem buildCooc_char (σ : List String → List String)
    (hσ : ∀ l, (σ l).Perm l) (files : List FileAnalysis) (a b : String) :
    buildCooc σ files a b
      = files.countP (fun f => a ≠ b ∧ a ∈ combinedTags f ∧ b ∈ combinedTags f) := by
  have h := buildCooc_eq_countP σ hσ files (fun _ _ => 0) a b
  simpa [buildCooc] using h

/-- C3: for distinct tags `a` and `b`, `b ∈ relatedTags(a)` iff at least two
documents carry both, and the relation is symmetric. -/
theorem related_tags_cooccurrence_symmetric
    (σ : List String → List String) (hσ : ∀ l, (σ l).Perm l)
    (files : List FileAnalysis) (a b : String) (hab : a ≠ b) :
    (relatedMem σ files a b = true ↔
      2 ≤ files.countP (fun f => a ∈ combinedTags f ∧ b ∈ combinedTags f))
    ∧ (relatedMem σ files a b = true → relatedMem σ files b a = true) := by
  have hcount : ∀ (x y : String), x ≠ y →
      buildCooc σ files x y = files.countP (fun f => x ∈ combinedTags f ∧ y ∈ combinedTags f) := by
    intro x y hxy
    rw [buildCooc_char σ hσ]
    exact List.countP_congr (fun f _ => by simp [hxy])
  constructor
  · rw [relatedMem, hcount a b hab]
    simp
  · intro h
    rw [relatedMem, hcount b a (fun hba => hab hba.symm)]
    rw [relatedMem, hcount a b hab] at h
    simp only [decide_eq_true_eq] at h ⊢
    calc 2 ≤ files.countP (fun f => a ∈ combinedTags f ∧ b ∈ combinedTags f) := by
            simpa using h
    _ = files.countP (fun f => b ∈ combinedTags f ∧ a ∈ combinedTags f) :=
          List.countP_congr (fun f _ => by simp [and_comm])

/-- Witness for C3 at the four-document sample. -/
theorem related_tags_cooccurrence_symmetric_witness :
    relatedMem id sampleFiles "c" "d" = true
    ∧ relatedMem id sampleFiles "d" "c" = true
    ∧ relatedMem id sampleFiles "c" "a" = false := by
  have h := related_tags_cooccurrence_symmetric id (fun l => List.Perm.refl _)
    sampleFiles "c" "d" (by decide)
  exact ⟨h.1.mpr (by decide), h.2 (h.1.mpr (by decide)), by decide⟩

/-! ## C2: consolidation candidates -/

theorem keys_dictAppend (d : List (String × List String)) (t p u : String) :
    u ∈ (dictAppend d t p).map (fun e => e.1) ↔ u ∈ d.map (fun e => e.1) ∨ u = t := by
  induction d with
  | nil => simp [dictAppend]
  | cons e es ih =>
    by_cases het : e.1 = t
    · simp only [dictAppend, if_pos het, List.map_cons, List.mem_cons]
      constructor
      · rintro (h | h)
        · exact Or.inl (Or.inl h)
        · exact Or.inl (Or.inr h)
      · rintro ((h | h) | h)
        · exact Or.inl h
        · exact Or.inr h
        · exact Or.inl (h.trans het.symm)
    · simp only [dictAppend, if_neg het, List.map_cons, List.mem_cons, ih]
      tauto

theorem keys_foldl_tags (p : String) (tags : List String) :
    ∀ (d : List (String × List String)) (u : String),
      u ∈ ((tags.foldl (fun d t => dictAppend d t p) d).map (fun e => e.1)) ↔
        u ∈ d.map (fun e => e.1) ∨ u ∈ tags := by
  induction tags with
  | nil => intro d u; simp
  | cons t ts ih =>
    intro d u
    simp only [List.foldl_cons]
    rw [ih, keys_dictAppend]
    simp only [List.mem_cons]
    tauto

theorem mem_tagAnalysisKeys (σ : List String → List String)
    (hσ : ∀ l, (σ l).Perm l) (files : List FileAnalysis) (u : String) :
    u ∈ tagAnalysisKeys σ files ↔ ∃ f ∈ files, u ∈ combinedTags f := by
  have haux : ∀ (d : List (String × List String)),
      u ∈ ((files.foldl
        (fun d f => (σ (combinedTags f)).foldl (fun d t => dictAppend d t f.path) d) d).map
          (fun e => e.1)) ↔
        u ∈ d.map (fun e => e.1) ∨ ∃ f ∈ files, u ∈ combinedTags f := by
    induction files with
    | nil => intro d; simp
    | cons f fs ih =>
      intro d
      simp only [List.foldl_cons]
      rw [ih, keys_foldl_tags]
      have hm : u ∈ σ (combinedTags f) ↔ u ∈ combinedTags f := (hσ (combinedTags f)).mem_iff
      simp only [List.mem_cons, hm]
      constructor
      · rintro (⟨h | h⟩ | ⟨g, hg, hu⟩)
        · exact Or.inl h
        · exact Or.inr ⟨f, Or.inl rfl, h⟩
        · exact Or.inr ⟨g, Or.inr hg, hu⟩
      · rintro (h | ⟨g, hg | hg, hu⟩)
        · exact Or.inl (Or.inl h)
        · exact Or.inl (Or.inr (hg ▸ hu))
        · exact Or.inr ⟨g, hg, hu⟩
  have h := haux []
  simpa [tagAnalysisKeys, buildTagFiles] using h

theorem mem_frequentKeys (σ : List String → List String)
    (hσ : ∀ l, (σ l).Perm l) (files : List FileAnalysis) (m : Nat) (u : String) :
    u ∈ frequentKeys σ files m ↔
      (∃ f ∈ files, u ∈ combinedTags f) ∧ m ≤ frequency σ files u := by
  rw [frequentKeys, List.mem_filter, mem_tagAnalysisKeys σ hσ]
  simp

theorem mem_overlapPairs (σ : List String → List String) (files : List FileAnalysis)
    (m : Nat) (t1 t2 : String) (n : Nat) :
    (t1, t2, n) ∈ overlapPairs σ files m ↔
      t1 ∈ frequentKeys σ files m ∧ t2 ∈ frequentKeys σ files m
      ∧ pyStrLt t1 t2 = true ∧ 2 ≤ n
      ∧ n = interCard (lookupTF (buildTagFiles σ files) t1)
              (lookupTF (buildTagFiles σ files) t2) := by
  simp only [overlapPairs, List.mem_flatMap, List.mem_filterMap]
  constructor
  · rintro ⟨a, ha, b, hb, hab⟩
    rw [overlapEntry] at hab
    split_ifs at hab with h1 h2
    · simp only [Option.some.injEq, Prod.mk.injEq] at hab
      obtain ⟨rfl, rfl, rfl⟩ := hab
      exact ⟨ha, hb, h1, h2, rfl⟩
  · rintro ⟨h1, h2, hlt, hn2, hn⟩
    refine ⟨t1, h1, t2, h2, ?_⟩
    rw [overlapEntry, if_pos hlt, if_pos (hn ▸ hn2), hn]

unseal List.merge List.mergeSort in
/-- C2 counterexample: on four documents tagged `{c, d}`, `{c, d}`, `{a, b}`,
`{a, b}` (all four tags meeting the frequency threshold 2), the report ranks
the tied candidate pairs as `(c, d)` before `(a, b)` — first-insertion order,
not the lexicographic tag-pair order the claim states, which would put the
lexicographically smaller pair `(a, b)` first. -/
theorem overlap_ranking_lex_counterexample :
    sortedOverlaps id sampleFiles 2 = [("c", "d", 2), ("a", "b", 2)]
    ∧ pyStrLt "a" "c" = true := by
  exact ⟨by decide, by decide⟩

/-- C2 (amended): a pair of distinct tags is a consolidation candidate iff
both tags occur on some document, both meet the minimum frequency threshold,
and they share at least two files; the candidate list is ranked descending by
overlap count with ties kept in generation order (the first-insertion order
of the tags in the analysis map), not in lexicographic tag-pair order. -/
theorem overlap_candidates_characterization (σ : List String → List String)
    (hσ : ∀ l, (σ l).Perm l) (files : List FileAnalysis) (m : Nat)
    (t1 t2 : String) (n : Nat) :
    ((t1, t2, n) ∈ sortedOverlaps σ files m ↔
      ((∃ f ∈ files, t1 ∈ combinedTags f) ∧ m ≤ frequency σ files t1
        ∧ (∃ f ∈ files, t2 ∈ combinedTags f) ∧ m ≤ frequency σ files t2
        ∧ pyStrLt t1 t2 = true ∧ 2 ≤ n
        ∧ n = interCard (lookupTF (buildTagFiles σ files) t1)
                (lookupTF (buildTagFiles σ files) t2)))
    ∧ (sortedOverlaps σ files m).Pairwise (fun x y => y.2.2 ≤ x.2.2) := by
  constructor
  · rw [sortedOverlaps, List.mem_mergeSort, mem_overlapPairs,
      mem_frequentKeys σ hσ, mem_frequentKeys σ hσ]
    tauto
  · have h := @List.sorted_mergeSort (String × String × Nat)
      (fun x y => decide (y.2.2 ≤ x.2.2))
      (fun a b c hab hbc => by
        simp only [decide_eq_true_eq] at hab hbc ⊢
        omega)
      (fun a b => by
        simp only [Bool.or_eq_true, decide_eq_true_eq]
        omega)
      (overlapPairs σ files m)
    rw [sortedOverlaps]
    exact h.imp (fun hab => by simpa using hab)

/-- Witness for C2 at the four-document sample. -/
theorem overlap_candidates_characterization_witness :
    ("c", "d", 2) ∈ sortedOverlaps id sampleFiles 2 := by
  have h := overlap_candidates_characterization id (fun l => List.Perm.refl _)
    sampleFiles 2 "c" "d" 2
  exact h.1.mpr (by decide)

/-! ## C4: rule resolution (resolution procedure modelled from the spec) -/

theorem find?_sorted_priority (f : FileAnalysis) :
    ∀ (s : List CategoryRule),
      s.Pairwise (fun a b => a.priority ≤ b.priority) →
      (∀ r ∈ s, 1 ≤ r.priority) →
      ∀ r1 ∈ s, r1.priority = 1 → r1.cond f = true →
      ∃ r0, s.find? (fun r => r.cond f) = some r0
        ∧ r0.priority = 1 ∧ r0.cond f = true ∧ r0 ∈ s := by
  intro s
  induction s with
  | nil => intro _ _ r1 h1; exact absurd h1 (List.not_mem_nil r1)
  | cons a s' ih =>
    intro hpw hpos r1 hr1 hp1 hc1
    rcases List.pairwise_cons.mp hpw with ⟨hab, hpw'⟩
    by_cases hca : a.cond f = true
    · refine ⟨a, ?_, ?_, hca, List.mem_cons_self a s'⟩
      · simp [List.find?_cons, hca]
      · rcases List.mem_cons.mp hr1 with h | h
        · rw [← h]; exact hp1
        · have h1 := hab r1 h
          have h2 := hpos a (List.mem_cons_self a s')
          omega
    · have hr1' : r1 ∈ s' := by
        rcases List.mem_cons.mp hr1 with h | h
        · exact absurd (h ▸ hc1) hca
        · exact h
      obtain ⟨r0, hf, hp0, hc0, hm0⟩ :=
        ih hpw' (fun r hr => hpos r (List.mem_cons_of_mem a hr)) r1 hr1' hp1 hc1
      refine ⟨r0, ?_, hp0, hc0, List.mem_cons_of_mem a hm0⟩
      rw [List.find?_cons_of_neg _ (by simp [hca])]
      exact hf

/-- C4: resolution (modelled from the spec over the embedded rule set)
evaluates rules in ascending priority order, first match wins: when the
priorities are positive and a priority-1 rule matches, the result is the
category of a matching priority-1 rule — in particular a document matching
rules of priorities 1 and 2 receives the priority-1 category — and when no
rule matches, the result is the explicit "uncategorized" sentinel (the result
type is a plain string; no null or omitted value exists). -/
theorem rule_resolution_priority_and_sentinel (rules : List CategoryRule) (f : FileAnalysis) :
    ((∀ r ∈ rules, 1 ≤ r.priority) →
      (∃ r ∈ rules, r.priority = 1 ∧ r.cond f = true) →
      ∃ r ∈ rules, r.priority = 1 ∧ r.cond f = true
        ∧ resolveCategory rules f = r.category)
    ∧ ((∀ r ∈ rules, r.cond f = false) → resolveCategory rules f = "uncategorized") := by
  constructor
  · intro hpos ⟨r1, hr1, hp1, hc1⟩
    have hperm : (rules.mergeSort (fun a b => a.priority ≤ b.priority)).Perm rules :=
      List.mergeSort_perm rules _
    have hpw : (rules.mergeSort (fun a b => a.priority ≤ b.priority)).Pairwise
        (fun a b => a.priority ≤ b.priority) := by
      have h := @List.sorted_mergeSort CategoryRule
        (fun a b => decide (a.priority ≤ b.priority))
        (fun a b c hab hbc => by
          simp only [decide_eq_true_eq] at hab hbc ⊢; omega)
        (fun a b => by simp only [Bool.or_eq_true, decide_eq_true_eq]; omega)
        rules
      exact h.imp (fun hab => by simpa using hab)
    obtain ⟨r0, hf, hp0, hc0, hm0⟩ := find?_sorted_priority f _ hpw
      (fun r hr => hpos r (hperm.mem_iff.mp hr))
      r1 (hperm.mem_iff.mpr hr1) hp1 hc1
    refine ⟨r0, hperm.mem_iff.mp hm0, hp0, hc0, ?_⟩
    rw [resolveCategory]
    rw [show (rules.mergeSort (fun a b => a.priority ≤ b.priority)).find?
          (fun r => r.cond f) = some r0 from hf]
  · intro hnone
    rw [resolveCategory]
    have hf : (rules.mergeSort (fun a b => a.priority ≤ b.priority)).find?
        (fun r => r.cond f) = none := by
      apply List.find?_eq_none.mpr
      intro r hr
      have := hnone r ((List.mergeSort_perm rules _).mem_iff.mp hr)
      simp [this]
    rw [hf]

unseal List.merge List.mergeSort in
/-- Witness for C4: the document matching the priority-1 blog rule and the
priority-2 project-agents rule resolves to the blog rule's category, and a
document matching nothing resolves to the sentinel. -/
theorem rule_resolution_priority_and_sentinel_witness :
    (∃ r ∈ generatedRules, r.priority = 1 ∧ r.cond agentBlogDoc = true
       ∧ resolveCategory generatedRules agentBlogDoc = r.category)
    ∧ resolveCategory generatedRules plainDoc = "uncategorized" := by
  have h := rule_resolution_priority_and_sentinel generatedRules agentBlogDoc
  have h2 := rule_resolution_priority_and_sentinel generatedRules plainDoc
  exact ⟨h.1 (by decide) (by decide), h2.2 (by decide)⟩

/-! ## C5: the blog example -/

unseal List.merge List.mergeSort in
/-- C5 counterexample: the document with directory context `["AI", "Blog"]`
and filename `"My trip.md"` is not assigned content type `blog` (the
directory membership test is case-sensitive and `"Blog" ≠ "blog"`), and rule
resolution does not assign it `AI/Blog`. -/
theorem blog_example_counterexample :
    tripDoc.content_type ≠ "blog"
    ∧ resolveCategory generatedRules tripDoc ≠ "AI/Blog" := by
  exact ⟨by decide, by decide⟩

unseal List.merge List.mergeSort in
/-- C5 (amended): the document with directory context `["AI", "Blog"]` and
filename `"My trip.md"` receives content type `general` (the case-sensitive
directory test does not match `"Blog"`) and resolves to the `uncategorized`
sentinel; with a lower-cased directory context `["ai", "blog"]` it receives
content type `blog` and category `AI/Blog` via the priority-1
blog-centralization rule. -/
theorem blog_example_amended :
    tripDoc.content_type = "general"
    ∧ resolveCategory generatedRules tripDoc = "uncategorized"
    ∧ tripDocLower.content_type = "blog"
    ∧ resolveCategory generatedRules tripDocLower = "AI/Blog" := by
  exact ⟨by decide, by decide, by decide, by decide⟩

/-! ## C6: run-to-run determinism -/

/-- C6 counterexample: the statistics pipeline's report output depends on the
Python set iteration order, which varies across processes (hash
randomisation).  Both `id` and `List.reverse` are admissible enumerations of
the proposed-tag set of `"blog draft.md"` (the permutation fact is part of
the statement), yet the two runs produce different file-by-file report rows,
so two runs on the same snapshot need not produce identical output. -/
theorem pipeline_order_dependence_counterexample :
    (List.reverse (proposedTagSet "blog draft.md" [] "")).Perm
        (proposedTagSet "blog draft.md" [] "")
    ∧ (extractNode id [] blogDraftTree).map (fun l => l.map fileRow)
        = Except.ok ["| docs/blog draft.md | None | draft, blog | blog |"]
    ∧ (extractNode List.reverse [] blogDraftTree).map (fun l => l.map fileRow)
        = Except.ok ["| docs/blog draft.md | None | blog, draft | blog |"]
    ∧ (extractNode id [] blogDraftTree).map (fun l => l.map fileRow)
        ≠ (extractNode List.reverse [] blogDraftTree).map (fun l => l.map fileRow) := by
  exact ⟨by decide, by decide, by decide, by decide⟩

/-- C6 (amended): the pipeline is deterministic up to the set iteration
order: any two admissible enumerations yield permutations of each other's
proposed-tag lists, identical per-tag file lists and frequencies, identical
co-occurrence counts, and the same set of analysis keys; only listing orders
(and hence tie orders and report text) may differ between runs. -/
theorem statistics_order_invariance
    (σ₁ σ₂ : List String → List String)
    (hσ₁ : ∀ l, (σ₁ l).Perm l) (hσ₂ : ∀ l, (σ₂ l).Perm l)
    (files : List FileAnalysis) (t a b nm desc : String) (dirs : List String) :
    (proposeTags σ₁ nm dirs desc).Perm (proposeTags σ₂ nm dirs desc)
    ∧ lookupTF (buildTagFiles σ₁ files) t = lookupTF (buildTagFiles σ₂ files) t
    ∧ frequency σ₁ files t = frequency σ₂ files t
    ∧ buildCooc σ₁ files a b = buildCooc σ₂ files a b
    ∧ (t ∈ tagAnalysisKeys σ₁ files ↔ t ∈ tagAnalysisKeys σ₂ files) := by
  refine ⟨?_, ?_, ?_, ?_, ?_⟩
  · exact (hσ₁ _).trans (hσ₂ _).symm
  · rw [lookupTF_char σ₁ hσ₁, lookupTF_char σ₂ hσ₂]
  · rw [frequency_char σ₁ hσ₁, frequency_char σ₂ hσ₂]
  · rw [buildCooc_char σ₁ hσ₁, buildCooc_char σ₂ hσ₂]
  · rw [mem_tagAnalysisKeys σ₁ hσ₁, mem_tagAnalysisKeys σ₂ hσ₂]

/-- Witness for C6 (amended) at the four-document sample with the two
concrete enumerations `id` and `List.reverse`. -/
theorem statistics_order_invariance_witness :
    (proposeTags id "blog draft.md" [] "").Perm (proposeTags List.reverse "blog draft.md" [] "")
    ∧ frequency id sampleFiles "c" = frequency List.reverse sampleFiles "c"
    ∧ buildCooc id sampleFiles "c" "d" = buildCooc List.reverse sampleFiles "c" "d" := by
  have h := statistics_order_invariance id List.reverse (fun l => List.Perm.refl _)
    (fun l => List.reverse_perm l) sampleFiles "c" "c" "d" "blog draft.md" "" []
  exact ⟨h.1, h.2.2.1, h.2.2.2.1⟩

/-! ## C7: provider failure handling -/

/-- C7 counterexample: the claim fails for the relationship-mapping and
optimization stages.  Their fallback dictionaries carry no confidence-0
field and no unknown sentinel of any kind: a well-formed provider response
whose lists are legitimately empty parses to exactly the fallback opinion,
so a downstream consumer cannot distinguish a real opinion from a fallback
opinion in those stages. -/
theorem provider_fallback_indistinguishable :
    mapRelationships (some ⟨[], [], [], []⟩) = mapRelationships none
    ∧ mapRelationships none = relationshipFallback
    ∧ relationshipFallback = ⟨[], [], [], []⟩
    ∧ optimizeStructure (some ⟨[], [], [], [], [], []⟩) = optimizeStructure none
    ∧ optimizeStructure none = optimizationFallback
    ∧ optimizationFallback = ⟨[], [], [], [], [], []⟩ := by
  exact ⟨rfl, rfl, rfl, rfl, rfl, rfl⟩

/-- C7 (amended): every stage's response handler is total — a parse failure
yields the stage's fixed default opinion instead of propagating an
exception, and a parsed response passes through unchanged.  But only some
stages mark the fallback so that consumers can tell it apart: the
content-analysis fallback carries confidence 0, and the categorizer, tagger
and strategist fallbacks carry failure-text sentinels; the
relationship-mapper and optimizer fallbacks are all-empty records with no
confidence field and no sentinel, indistinguishable from legitimate empty
opinions. -/
theorem provider_fallback_opinions :
    (∀ r, analyzeContent (some r) = r)
    ∧ analyzeContent none = contentAnalysisFallback
    ∧ contentAnalysisFallback.confidence_score = 0
    ∧ (∀ r, categorizeDocument (some r) = r)
    ∧ categorizeDocument none = categorizationFallback
    ∧ categorizationFallback.primary_category = "Uncategorized"
    ∧ categorizationFallback.category_rationale = "Categorization failed"
    ∧ (∀ r, suggestTags (some r) = r)
    ∧ suggestTags none = taggingFallback
    ∧ taggingFallback.primary_tags = []
    ∧ taggingFallback.secondary_tags = []
    ∧ taggingFallback.technical_tags = []
    ∧ taggingFallback.contextual_tags = []
    ∧ taggingFallback.tag_rationale = "Tag generation failed"
    ∧ (∀ r, mapRelationships (some r) = r)
    ∧ mapRelationships none = relationshipFallback
    ∧ relationshipFallback
        = { strong_relationships := [], weak_relationships := [],
            content_clusters := [], knowledge_gaps := [] }
    ∧ (∀ r, optimizeStructure (some r) = r)
    ∧ optimizeStructure none = optimizationFallback
    ∧ optimizationFallback
        = { tag_consolidation := [], category_rebalancing := [],
            hierarchy_optimization := [], search_optimization := [],
            cognitive_load_reduction := [], metrics := [] }
    ∧ (∀ r, createStrategy (some r) = r)
    ∧ createStrategy none = strategyFallback
    ∧ strategyFallback.executive_summary = "Strategy creation failed" := by
  exact ⟨fun r => rfl, rfl, rfl, fun r => rfl, rfl, rfl, rfl, fun r => rfl, rfl,
    rfl, rfl, rfl, rfl, rfl, fun r => rfl, rfl, rfl, fun r => rfl, rfl, rfl,
    fun r => rfl, rfl, rfl⟩

/-! ## C10: non-list frontmatter tags -/

theorem existingTagsOf_eq_nil (v : FmVal) (hv : ∀ l, v ≠ FmVal.list l) :
    existingTagsOf v = [] := by
  cases v with
  | str s => rfl
  | list l => exact absurd rfl (hv l)
  | missing => rfl

/-- C10: a file node whose frontmatter `tags` value is present but not a list
is recorded with an empty existing-tags list (the value is silently
discarded), and a tag not among the proposed tags therefore has frequency 0
over that document. -/
theorem nonlist_tags_discarded (σ : List String → List String)
    (hσ : ∀ l, (σ l).Perm l) (nm pth desc : String) (v : FmVal)
    (hv : ∀ l, v ≠ FmVal.list l) (hmd : strEndsWith nm ".md" = true)
    (u : String) (hu : u ∉ proposeTags σ nm (parentParts pth) desc) :
    extractNode σ [] (JNode.node (some "file") (some nm) (some pth) v desc [])
      = Except.ok [⟨pth, nm, [], proposeTags σ nm (parentParts pth) desc,
          determineContentType nm (parentParts pth) desc, parentParts pth, desc⟩]
    ∧ frequency σ [⟨pth, nm, [], proposeTags σ nm (parentParts pth) desc,
          determineContentType nm (parentParts pth) desc, parentParts pth, desc⟩] u = 0 := by
  constructor
  · rw [extractNode]
    simp [keyErr, Bind.bind, Except.bind, hmd, existingTagsOf_eq_nil v hv, pure, Except.pure]
  · rw [frequency_char σ hσ]
    simp only [List.countP_cons, List.countP_nil]
    have : u ∉ combinedTags ⟨pth, nm, [], proposeTags σ nm (parentParts pth) desc,
        determineContentType nm (parentParts pth) desc, parentParts pth, desc⟩ := by
      rw [combinedTags]
      simp only [List.nil_append, List.mem_dedup]
      intro hmem
      exact hu hmem
    simp [this]

/-- Witness for C10 at a file node whose tags value is the string
`"python"`. -/
theorem nonlist_tags_discarded_witness :
    extractNode id [] scalarTagsNode
      = Except.ok [⟨"docs/a.md", "a.md", [], [], "general", ["docs"], ""⟩]
    ∧ frequency id [⟨"docs/a.md", "a.md", [], [], "general", ["docs"], ""⟩] "python" = 0 := by
  have h := nonlist_tags_discarded id (fun l => List.Perm.refl _) "a.md" "docs/a.md" ""
    (FmVal.str "python") (fun l => by simp) (by decide) "python" (by decide)
  constructor
  · exact h.1.trans (by decide)
  · have h2 := h.2
    rw [show proposeTags id "a.md" (parentParts "docs/a.md") "" = ([] : List String)
          from by decide] at h2
    rw [show determineContentType "a.md" (parentParts "docs/a.md") "" = "general"
          from by decide] at h2
    rw [show parentParts "docs/a.md" = ["docs"] from by decide] at h2
    exact h2

/-! ## C9: malformed nodes abort the walk -/

theorem exceptOk_pure {ε α : Type} (a : α) :
    exceptOk (pure a : Except ε α) = true := rfl

theorem exceptOk_bind {ε α β : Type} (x : Except ε α) (f : α → Except ε β) :
    exceptOk (x >>= f)
      = (match x with
         | Except.ok a => exceptOk (f a)
         | Except.error _ => false) := by
  cases x <;> rfl

theorem any_attach {α : Type} (l : List α) (p : α → Bool) :
    (l.attach.any fun x => p x.1) = l.any p := by
  rw [Bool.eq_iff_iff, List.any_eq_true, List.any_eq_true]
  constructor
  · rintro ⟨⟨a, ha⟩, _, hp⟩
    exact ⟨a, ha, hp⟩
  · rintro ⟨a, ha, hp⟩
    exact ⟨⟨a, ha⟩, List.mem_attach l ⟨a, ha⟩, hp⟩

mutual

theorem extract_ok_iff (σ : List String → List String) (ctx : List String) :
    ∀ (t : JNode), exceptOk (extractNode σ ctx t) = !hasDefect t
  | JNode.node ty n p tg d cs => by
    rw [extractNode, hasDefect.eq_def]
    simp only [any_attach]
    by_cases hfile : ty = some "file"
    · subst hfile
      cases n with
      | none =>
        cases cs <;>
          simp [keyErr, exceptOk, pure, Except.pure, Bind.bind, Except.bind,
            Functor.map, Except.map]
      | some nm =>
        by_cases hmd : strEndsWith nm ".md" = true
        · cases p with
          | none =>
            cases cs <;>
              simp [keyErr, hmd, exceptOk, pure, Except.pure, Bind.bind, Except.bind,
                Functor.map, Except.map]
          | some pth =>
            cases cs with
            | nil =>
              simp [keyErr, hmd, exceptOk, pure, Except.pure, Bind.bind, Except.bind,
                Functor.map, Except.map]
            | cons c cs2 =>
              have hrec := extractList_ok_iff σ ctx (c :: cs2)
              simp only [List.any_cons, Bool.not_or] at hrec
              cases hy : extractList σ ctx (c :: cs2) with
              | error e =>
                rw [hy] at hrec
                simp only [exceptOk] at hrec
                simp [keyErr, hmd, exceptOk, pure, Except.pure, Bind.bind, Except.bind,
                  Functor.map, Except.map, hy, ← hrec]
              | ok rs =>
                rw [hy] at hrec
                simp only [exceptOk] at hrec
                simp [keyErr, hmd, exceptOk, pure, Except.pure, Bind.bind, Except.bind,
                  Functor.map, Except.map, hy, ← hrec]
        · cases cs with
          | nil =>
            simp [keyErr, hmd, exceptOk, pure, Except.pure, Bind.bind, Except.bind,
              Functor.map, Except.map]
          | cons c cs2 =>
            have hrec := extractList_ok_iff σ ctx (c :: cs2)
            simp only [List.any_cons, Bool.not_or] at hrec
            cases hy : extractList σ ctx (c :: cs2) with
            | error e =>
              rw [hy] at hrec
              simp only [exceptOk] at hrec
              simp [keyErr, hmd, exceptOk, pure, Except.pure, Bind.bind, Except.bind,
                Functor.map, Except.map, hy, ← hrec]
            | ok rs =>
              rw [hy] at hrec
              simp only [exceptOk] at hrec
              simp [keyErr, hmd, exceptOk, pure, Except.pure, Bind.bind, Except.bind,
                Functor.map, Except.map, hy, ← hrec]
    · by_cases hdir : ty = some "directory"
      · subst hdir
        cases cs with
        | nil =>
          simp [exceptOk, pure, Except.pure, Bind.bind, Except.bind,
            Functor.map, Except.map]
        | cons c cs2 =>
          cases n with
          | none =>
            simp [keyErr, exceptOk, pure, Except.pure, Bind.bind, Except.bind,
              Functor.map, Except.map]
          | some nm =>
            have hrec := extractList_ok_iff σ (ctx ++ [nm]) (c :: cs2)
            simp only [List.any_cons, Bool.not_or] at hrec
            cases hy : extractList σ (ctx ++ [nm]) (c :: cs2) with
            | error e =>
              rw [hy] at hrec
              simp only [exceptOk] at hrec
              simp [keyErr, exceptOk, pure, Except.pure, Bind.bind, Except.bind,
                Functor.map, Except.map, hy, ← hrec]
            | ok rs =>
              rw [hy] at hrec
              simp only [exceptOk] at hrec
              simp [keyErr, exceptOk, pure, Except.pure, Bind.bind, Except.bind,
                Functor.map, Except.map, hy, ← hrec]
      · cases cs with
        | nil =>
          simp [hfile, hdir, exceptOk, pure, Except.pure, Bind.bind, Except.bind,
            Functor.map, Except.map]
        | cons c cs2 =>
          have hrec := extractList_ok_iff σ ctx (c :: cs2)
          simp only [List.any_cons, Bool.not_or] at hrec
          cases hy : extractList σ ctx (c :: cs2) with
          | error e =>
            rw [hy] at hrec
            simp only [exceptOk] at hrec
            simp [hfile, hdir, keyErr, exceptOk, pure, Except.pure, Bind.bind, Except.bind,
              Functor.map, Except.map, hy, ← hrec]
          | ok rs =>
            rw [hy] at hrec
            simp only [exceptOk] at hrec
            simp [hfile, hdir, keyErr, exceptOk, pure, Except.pure, Bind.bind, Except.bind,
              Functor.map, Except.map, hy, ← hrec]

theorem extractList_ok_iff (σ : List String → List String) (ctx : List String) :
    ∀ (cs : List JNode), exceptOk (extractList σ ctx cs) = !(cs.any fun c => hasDefect c)
  | [] => by
    simp [extractList, exceptOk, pure, Except.pure]
  | c :: cs => by
    rw [extractList]
    simp only [List.any_cons, Bool.not_or]
    rw [← extract_ok_iff σ ctx c, ← extractList_ok_iff σ ctx cs]
    cases hx : extractNode σ ctx c with
    | error e =>
      simp [exceptOk, pure, Except.pure, Bind.bind, Except.bind, Functor.map, Except.map, hx]
    | ok r =>
      cases hy : extractList σ ctx cs with
      | error e =>
        simp [exceptOk, pure, Except.pure, Bind.bind, Except.bind, Functor.map, Except.map, hx, hy]
      | ok rs =>
        simp [exceptOk, pure, Except.pure, Bind.bind, Except.bind, Functor.map, Except.map, hx, hy]

end

/-- C9 counterexample: a snapshot whose first child is a file node with no
`name` makes the extraction walk fail with a `KeyError` instead of skipping
the node with a warning, and the well-formed `.md` sibling is not extracted;
the workflow extractor behaves the same. -/
theorem malformed_node_counterexample :
    extractNode id [] badTree = Except.error "name"
    ∧ extractWF badTree = Except.error "name" := by
  exact ⟨by decide, by decide⟩

/-- C9 (amended): a node missing required fields is not skipped with a
warning: the walk of `_extract_files_recursive` fails (with a `KeyError`)
exactly when the snapshot contains a defective node — a file-typed node
without `name`, a `.md` file node without `path`, or a directory-typed node
that has children but no `name` — and in that case no records at all are
produced; only a missing or unrecognised `type` is tolerated (such nodes are
traversed as neither file nor directory). -/
theorem malformed_node_aborts_walk (σ : List String → List String)
    (ctx : List String) (t : JNode) :
    exceptOk (extractNode σ ctx t) = !hasDefect t := extract_ok_iff σ ctx t

/-! ## C8: extractor order and directory context -/

theorem all_attach {α : Type} (l : List α) (p : α → Bool) :
    (l.attach.all fun x => p x.1) = l.all p := by
  rw [Bool.eq_iff_iff, List.all_eq_true, List.all_eq_true]
  constructor
  · rintro h a ha
    exact h ⟨a, ha⟩ (List.mem_attach l ⟨a, ha⟩)
  · rintro h ⟨a, ha⟩ _
    exact h a ha

theorem flatMap_attach {α β : Type} (l : List α) (f : α → List β) :
    (l.attach.flatMap fun x => f x.1) = l.flatMap f := by
  have h := List.flatMap_map (@Subtype.val α (fun x => x ∈ l)) f l.attach
  rw [List.attach_map_subtype_val] at h
  exact h.symm

theorem flatMap_filterMap {α β γ : Type} (l : List α) (f : α → Option β) (g : β → List γ) :
    (l.filterMap f).flatMap g
      = l.flatMap (fun a => match f a with | some b => g b | none => []) := by
  induction l with
  | nil => rfl
  | cons a l ih =>
    cases hfa : f a with
    | none => simp [List.filterMap_cons, hfa, ih]
    | some b => simp [List.filterMap_cons, hfa, ih]

theorem filterMap_if_eq_flatMap {α γ : Type} (l : List α) (p : α → Bool) (g : α → γ) :
    l.filterMap (fun a => if p a then some (g a) else none)
      = l.flatMap (fun a => if p a then [g a] else []) := by
  induction l with
  | nil => rfl
  | cons a l ih =>
    by_cases hp : p a = true
    · simp [List.filterMap_cons, hp, ih]
    · simp [List.filterMap_cons, hp, ih]

theorem suffix_through_sep {sfx : List Char} {c : Char} (hc : c ∉ sfx) :
    ∀ (xs ys : List Char), (sfx <:+ xs ++ c :: ys) ↔ sfx <:+ ys := by
  intro xs
  induction xs with
  | nil =>
    intro ys
    rw [List.nil_append, List.suffix_cons_iff]
    constructor
    · rintro (h | h)
      · exact absurd (h ▸ List.mem_cons_self c ys) hc
      · exact h
    · exact Or.inr
  | cons x xs ih =>
    intro ys
    rw [List.cons_append, List.suffix_cons_iff]
    constructor
    · rintro (h | h)
      · refine absurd ?_ hc
        rw [h]
        exact List.mem_cons_of_mem x (List.mem_append_right xs (List.mem_cons_self c ys))
      · exact (ih ys).mp h
    · intro h
      exact Or.inr ((ih ys).mpr h)

theorem strEndsWith_md_append (dirPath nm : String) :
    strEndsWith (dirPath ++ "/" ++ nm) ".md" = strEndsWith nm ".md" := by
  rw [strEndsWith, strEndsWith, Bool.eq_iff_iff]
  rw [String.data_append, String.data_append]
  rw [List.isSuffixOf_iff_suffix, List.isSuffixOf_iff_suffix]
  have : ("/" : String).data = ['/'] := rfl
  rw [this, List.append_assoc]
  have hsep := @suffix_through_sep (".md" : String).data '/'
    (by decide) dirPath.data nm.data
  simpa using hsep

mutual

theorem extract_wellNamed (σ : List String → List String) (ctx : List String) :
    ∀ (t : JNode), wellNamed t = true →
      extractNode σ ctx t = Except.ok (flattenSpec σ t)
  | JNode.node ty n p tg d cs => by
    intro hw
    rw [wellNamed.eq_def] at hw
    simp only [all_attach, Bool.and_eq_true, Option.isSome_iff_exists,
      List.all_eq_true] at hw
    obtain ⟨⟨⟨nm, hn⟩, ⟨pth, hp⟩⟩, hcs⟩ := hw
    subst hn
    subst hp
    rw [extractNode, flattenSpec.eq_def]
    simp only [flatMap_attach]
    have hrest : extractList σ ctx cs = Except.ok (cs.flatMap (flattenSpec σ)) :=
      extractList_wellNamed σ ctx cs hcs
    have hrest2 : ∀ c2, extractList σ c2 cs = Except.ok (cs.flatMap (flattenSpec σ)) :=
      fun c2 => extractList_wellNamed σ c2 cs hcs
    by_cases hfile : ty = some "file"
    · subst hfile
      by_cases hmd : strEndsWith nm ".md" = true
      · cases cs with
        | nil =>
          simp [keyErr, hmd, pure, Except.pure, Bind.bind, Except.bind,
            Functor.map, Except.map]
        | cons c cs2 =>
          simp [keyErr, hmd, pure, Except.pure, Bind.bind, Except.bind,
            Functor.map, Except.map, hrest2]
      · cases cs with
        | nil =>
          simp [keyErr, hmd, pure, Except.pure, Bind.bind, Except.bind,
            Functor.map, Except.map]
        | cons c cs2 =>
          simp [keyErr, hmd, pure, Except.pure, Bind.bind, Except.bind,
            Functor.map, Except.map, hrest2]
    · by_cases hdir : ty = some "directory"
      · subst hdir
        cases cs with
        | nil =>
          simp [keyErr, pure, Except.pure, Bind.bind, Except.bind,
            Functor.map, Except.map]
        | cons c cs2 =>
          simp [keyErr, pure, Except.pure, Bind.bind, Except.bind,
            Functor.map, Except.map, hrest2]
      · cases cs with
        | nil =>
          simp [hfile, hdir, keyErr, pure, Except.pure, Bind.bind, Except.bind,
            Functor.map, Except.map]
        | cons c cs2 =>
          simp [hfile, hdir, keyErr, pure, Except.pure, Bind.bind, Except.bind,
            Functor.map, Except.map, hrest2]

theorem extractList_wellNamed (σ : List String → List String) (ctx : List String) :
    ∀ (cs : List JNode), (∀ c ∈ cs, wellNamed c = true) →
      extractList σ ctx cs = Except.ok (cs.flatMap (flattenSpec σ))
  | [] => by
    intro _
    simp [extractList, pure, Except.pure]
  | c :: cs => by
    intro hw
    rw [extractList]
    rw [extract_wellNamed σ ctx c (hw c (List.mem_cons_self c cs)),
      extractList_wellNamed σ ctx cs (fun c2 hc2 => hw c2 (List.mem_cons_of_mem c hc2))]
    simp [pure, Except.pure, Bind.bind, Except.bind, Functor.map, Except.map]

end

theorem flatMap_filterMap_mdPaths (l : List FSTree) (f : FSTree → Option JNode) :
    (l.filterMap f).flatMap mdPaths = l.flatMap (fun a => mdPathsO (f a)) := by
  induction l with
  | nil => rfl
  | cons a l ih =>
    cases hfa : f a with
    | none => simp [List.filterMap_cons, hfa, ih, mdPathsO]
    | some b => simp [List.filterMap_cons, hfa, ih, mdPathsO]

theorem mdPaths_childFileNode (sd st : Bool) (dirPath : String) (f : FSFile) :
    mdPaths (childFileNode sd st dirPath f)
      = if strEndsWith f.name ".md" = true then [dirPath ++ "/" ++ f.name] else [] := by
  rw [childFileNode, mdPaths.eq_def]
  simp [strEndsWith_md_append]

theorem mdPaths_build (sd st : Bool) :
    ∀ (fuel : Nat) (dirPath : String) (fs : FSTree),
      mdPathsO (buildJsonTree sd st fuel dirPath fs) = fsDocs fuel dirPath fs := by
  intro fuel
  induction fuel with
  | zero => intro dirPath fs; cases fs; rfl
  | succ fuel ih =>
    intro dirPath fs
    cases fs with
    | dir nm subdirs files =>
      rw [buildJsonTree, fsDocs, mdPathsO, mdPaths.eq_def]
      simp only [flatMap_attach, List.flatMap_append]
      have hmatch : (match (some "directory" : Option String), (some dirPath : Option String) with
          | some "file", some pth => if strEndsWith pth ".md" = true then [pth] else []
          | _, _ => ([] : List String)) = [] := rfl
      rw [hmatch, List.nil_append]
      congr 1
      · rw [flatMap_filterMap_mdPaths]
        have hfun : (fun s : FSTree =>
              mdPathsO (buildJsonTree sd st fuel (dirPath ++ "/" ++ s.name) s))
            = fun s : FSTree => fsDocs fuel (dirPath ++ "/" ++ s.name) s :=
          funext (fun s => ih (dirPath ++ "/" ++ s.name) s)
        rw [hfun]
      · rw [List.flatMap_map]
        have hfun : (fun f : FSFile => mdPaths (childFileNode sd st dirPath f))
            = fun f : FSFile =>
                if strEndsWith f.name ".md" = true then [dirPath ++ "/" ++ f.name] else [] :=
          funext (fun f => mdPaths_childFileNode sd st dirPath f)
        rw [hfun, filterMap_if_eq_flatMap]

unseal List.merge List.mergeSort in
/-- C8 counterexample: (i) the extractor cannot consume `build_json_tree`
output at all — the builder emits no `name` key, so extraction of the built
sample snapshot fails with a `KeyError` instead of emitting one record per
`.md` file; (ii) on a name-bearing snapshot with an absolute root, a record's
directory context is `["/", "docs"]` — the parent components of the recorded
path, including the filesystem prefix — not the ancestor directory list
`["docs"]` from the tree root; (iii) on a snapshot whose children are not
sorted, the extractor emits records in the snapshot's own child order, not
case-insensitive alphabetical order. -/
theorem extractor_counterexample :
    extractBuilt id (buildJsonTree true true 3 "docs" sampleFS) = Except.error "name"
    ∧ extractNode id [] absTree
        = Except.ok [⟨"/docs/a.md", "a.md", [], [], "general", ["/", "docs"], ""⟩]
    ∧ (["/", "docs"] : List String) ≠ ["docs"]
    ∧ (extractNode id [] unsortedTree).map (fun l => l.map (fun f => f.path))
        = Except.ok ["docs/b.md", "docs/A.md"] := by
  exact ⟨by decide, by decide, by decide, by decide⟩

/-- C8 (amended): (i) on every snapshot carrying `name` and `path` on all
nodes, the extractor emits exactly one record per `.md` file node in
depth-first order preserving each node's child order, each record's directory
context being the parent components of its recorded path (`flattenSpec` is
that specification-side enumeration); (ii) the tree builder lists the `.md`
files of the filesystem depth-first, directories before files,
case-insensitive alphabetical at each level (`fsDocs` is that
specification-side enumeration) — but the builder emits no `name` field, so
its output feeds the workflow extractor's shape only after names are added,
and contexts include the filesystem prefix of the tree root. -/
theorem extractor_order_and_context (σ : List String → List String) (sd st : Bool) :
    (∀ (t : JNode) (ctx : List String), wellNamed t = true →
        extractNode σ ctx t = Except.ok (flattenSpec σ t))
    ∧ (∀ (fuel : Nat) (dirPath : String) (fs : FSTree),
        mdPathsO (buildJsonTree sd st fuel dirPath fs) = fsDocs fuel dirPath fs) := by
  exact ⟨fun t ctx hw => extract_wellNamed σ ctx t hw, mdPaths_build sd st⟩

theorem wellNamed_node (ty n p : Option String) (tg : FmVal) (d : String)
    (cs : List JNode) :
    wellNamed (JNode.node ty n p tg d cs)
      = (n.isSome && p.isSome && cs.all wellNamed) := by
  rw [wellNamed.eq_def]
  dsimp only
  rw [all_attach]

unseal List.merge List.mergeSort in
/-- Witness for C8 (amended) at the absolute-path snapshot and the sample
filesystem. -/
theorem extractor_order_and_context_witness :
    wellNamed absTree = true
    ∧ extractNode id [] absTree = Except.ok (flattenSpec id absTree)
    ∧ mdPathsO (buildJsonTree true true 3 "docs" sampleFS) = fsDocs 3 "docs" sampleFS := by
  have hw : wellNamed absTree = true := by
    simp [absTree, wellNamed_node]
  have h := extractor_order_and_context id true true
  exact ⟨hw, h.1 absTree [] hw, h.2 3 "docs" sampleFS⟩

end Frontmatters
